import Mathlib

/-!
Verification of the blind-rendezvous signaling service
(crates/signaling: `services/rendezvous_service.rs`,
`repository/redis_repository.rs`, `server.rs`).

The Redis store is embedded as association lists from keys to values
(metadata, message lists, rendezvous mappings), and every Redis command
may fail with a transport error according to an explicit fault schedule
carried in the state (`Store.faults`): each command consumes the head of
the schedule and fails when it is `true`.  TTL values passed to the
store are recorded alongside the stored values; key eviction itself is
not modelled (expiry checks in the service are performed against
`expires_at_epoch_ms`, which is modelled).  Rust `u64`/`u128` fields
are embedded as `Nat`: no arithmetic in the modelled code wraps.
Random identifier generation (`gen_mailbox_id`) and the system clock
are modelled by passing the generated identifier and the current time
as explicit arguments.
-/

/-- `MailboxState` from `redis_repository.rs`. -/
structure MailboxState where
  mailbox_id : String
  peer_mailbox_id : Option String
  created_at_epoch_ms : Nat
  expires_at_epoch_ms : Nat
deriving DecidableEq, Repr

/-- `MailboxMessageStored` from `redis_repository.rs`. -/
structure MailboxMessageStored where
  from_mailbox_id : String
  ciphertext_b64 : String
  sequence : Nat
  timestamp_epoch_ms : Nat
deriving DecidableEq, Repr

/-- `MailboxMessage` from `shared/models` (the wire shape built by
`recv_messages`). -/
structure MailboxMessage where
  from_mailbox_id : String
  ciphertext_b64 : String
  sequence : Nat
  timestamp_epoch_ms : Nat
deriving DecidableEq, Repr

/-- `ConnectionInitResponse` from `shared/models`. -/
structure ConnectionInitResponse where
  mailbox_id : String
  expires_at_epoch_ms : Nat
deriving DecidableEq, Repr

/-- `ConnectionJoinResponse` from `shared/models`. -/
structure ConnectionJoinResponse where
  mailbox_id : String
  expires_at_epoch_ms : Nat
deriving DecidableEq, Repr

/-- `MailboxRecvResponse` from `shared/models`. -/
structure MailboxRecvResponse where
  messages : List MailboxMessage
  last_sequence : Nat
deriving DecidableEq, Repr

/-- `RendezvousError` from `rendezvous_service.rs`.  `Redis(_)` carries an
`anyhow::Error`; the payload is irrelevant to control flow and is dropped. -/
inductive RendezvousError where
  | Redis
  | MailboxNotFound
  | SessionExpired
  | InvalidToken
  | SessionAlreadyPaired
  | NoPeerConnected
deriving DecidableEq, Repr

/-- A raw entry of a Redis mailbox list: `push_message` stores the JSON
serialization of a `MailboxMessageStored`; other writers (or corruption)
could leave a string that does not deserialize.  `valid` is a string that
parses back, `corrupt` one that does not. -/
inductive RawEntry where
  | valid (m : MailboxMessageStored)
  | corrupt (s : String)
deriving DecidableEq, Repr

/-- `serde_json::from_str::<MailboxMessageStored>` on a raw entry. -/
def parseEntry : RawEntry → Option MailboxMessageStored
  | .valid m => some m
  | .corrupt _ => none

/-- Lookup in an association list (Redis `GET`). -/
def getKey {α : Type} (k : String) : List (String × α) → Option α
  | [] => none
  | (k2, v) :: rest => if k2 = k then some v else getKey k rest

/-- Unconditional set in an association list (Redis `SET`/`SETEX`:
overwrite allowed). -/
def setKey {α : Type} (k : String) (v : α) : List (String × α) → List (String × α)
  | [] => [(k, v)]
  | (k2, v2) :: rest => if k2 = k then (k, v) :: rest else (k2, v2) :: setKey k v rest

/-- Deletion from an association list (Redis `DEL`). -/
def delKey {α : Type} (k : String) : List (String × α) → List (String × α)
  | [] => []
  | (k2, v2) :: rest => if k2 = k then delKey k rest else (k2, v2) :: delKey k rest

theorem getKey_setKey_self {α : Type} (k : String) (v : α) (l : List (String × α)) :
    getKey k (setKey k v l) = some v := by
  induction l with
  | nil => simp [getKey, setKey]
  | cons hd tl ih =>
    obtain ⟨k2, v2⟩ := hd
    by_cases h : k2 = k
    · simp [getKey, setKey, h]
    · simp [getKey, setKey, h, ih]

theorem getKey_setKey_ne {α : Type} {k k2 : String} (v : α) (l : List (String × α))
    (h : k ≠ k2) : getKey k2 (setKey k v l) = getKey k2 l := by
  induction l with
  | nil => simp [getKey, setKey, h]
  | cons hd tl ih =>
    obtain ⟨k3, v3⟩ := hd
    by_cases h3 : k3 = k
    · subst h3
      simp [getKey, setKey, h]
    · simp [getKey, setKey, h3, ih]

theorem getKey_delKey_self {α : Type} (k : String) (l : List (String × α)) :
    getKey k (delKey k l) = none := by
  induction l with
  | nil => simp [getKey, delKey]
  | cons hd tl ih =>
    obtain ⟨k2, v2⟩ := hd
    by_cases h : k2 = k
    · simp [delKey, h, ih]
    · simp [getKey, delKey, h, ih]

theorem getKey_delKey_ne {α : Type} {k k2 : String} (l : List (String × α))
    (h : k ≠ k2) : getKey k2 (delKey k l) = getKey k2 l := by
  induction l with
  | nil => simp [delKey]
  | cons hd tl ih =>
    obtain ⟨k3, v3⟩ := hd
    by_cases h3 : k3 = k
    · subst h3
      simp [getKey, delKey, h, ih, Ne.symm h]
    · simp [getKey, delKey, h3, ih]

/-- The Redis state visible to `RedisRepository`, together with the fault
schedule for transport errors.  `metas` and `rendezvous` record the TTL
passed with each write (`SETEX`). -/
structure Store where
  metas : List (String × (MailboxState × Nat))
  lists : List (String × List RawEntry)
  rendezvous : List (String × (String × Nat))
  faults : List Bool
deriving DecidableEq, Repr

/-- Consume the next transport-fault flag (one Redis command). -/
def takeFault (s : Store) : Bool × Store :=
  match s.faults with
  | [] => (false, s)
  | b :: rest => (b, { s with faults := rest })

/-- `RedisRepository::save_mailbox_meta`: `SETEX meta_key json ttl`. -/
def save_mailbox_meta (s : Store) (state : MailboxState) (ttl_secs : Nat) :
    Store × Except Unit Unit :=
  let (f, s) := takeFault s
  if f then (s, .error ()) else
    ({ s with metas := setKey state.mailbox_id (state, ttl_secs) s.metas }, .ok ())

/-- `RedisRepository::get_mailbox_meta`: `GET meta_key`, deserialized. -/
def get_mailbox_meta (s : Store) (mailbox_id : String) :
    Store × Except Unit (Option MailboxState) :=
  let (f, s) := takeFault s
  if f then (s, .error ()) else (s, .ok ((getKey mailbox_id s.metas).map Prod.fst))

/-- `RedisRepository::clear_mailbox_messages`: `DEL list_key`. -/
def clear_mailbox_messages (s : Store) (mailbox_id : String) :
    Store × Except Unit Unit :=
  let (f, s) := takeFault s
  if f then (s, .error ()) else ({ s with lists := delKey mailbox_id s.lists }, .ok ())

/-- `RedisRepository::save_rendezvous`: `SETEX rendezvous_key mailbox_id ttl`
(unconditional overwrite). -/
def save_rendezvous (s : Store) (token mailbox_id : String) (ttl_secs : Nat) :
    Store × Except Unit Unit :=
  let (f, s) := takeFault s
  if f then (s, .error ()) else
    ({ s with rendezvous := setKey token (mailbox_id, ttl_secs) s.rendezvous }, .ok ())

/-- `RedisRepository::get_and_delete_rendezvous`: `GET`, then `DEL` when the
value was present. -/
def get_and_delete_rendezvous (s : Store) (token : String) :
    Store × Except Unit (Option String) :=
  let (f, s) := takeFault s
  if f then (s, .error ()) else
    match getKey token s.rendezvous with
    | none => (s, .ok none)
    | some (mid, _) =>
      let (f2, s) := takeFault s
      if f2 then (s, .error ()) else
        ({ s with rendezvous := delKey token s.rendezvous }, .ok (some mid))

/-- `RedisRepository::get_message_count`: `LLEN list_key` (0 for a missing
key). -/
def get_message_count (s : Store) (mailbox_id : String) :
    Store × Except Unit Nat :=
  let (f, s) := takeFault s
  if f then (s, .error ()) else (s, .ok ((getKey mailbox_id s.lists).getD []).length)

/-- `RedisRepository::push_message`: `RPUSH list_key json` then
`EXPIRE list_key ttl`.  The entry is appended even when the subsequent
`EXPIRE` fails. -/
def push_message (s : Store) (mailbox_id : String) (message : MailboxMessageStored)
    (ttl_secs : Nat) : Store × Except Unit Unit :=
  let (f, s) := takeFault s
  if f then (s, .error ()) else
    let entries := ((getKey mailbox_id s.lists).getD []) ++ [RawEntry.valid message]
    let s := { s with lists := setKey mailbox_id entries s.lists }
    let (f2, s) := takeFault s
    if f2 then (s, .error ()) else (s, .ok ())

/-- `RedisRepository::get_messages`: `LRANGE list_key 0 -1`, each entry
deserialized with `filter_map(|j| serde_json::from_str(&j).ok())`. -/
def get_messages (s : Store) (mailbox_id : String) :
    Store × Except Unit (List MailboxMessageStored) :=
  let (f, s) := takeFault s
  if f then (s, .error ()) else
    (s, .ok (((getKey mailbox_id s.lists).getD []).filterMap parseEntry))

/-- `RendezvousService::init_connection`.  `mailbox_ttl_secs` is the service
configuration, `now_ms` the value of `SystemTime::now()` and
`new_mailbox_id` the identifier produced by `connection::gen_mailbox_id()`. -/
def init_connection (mailbox_ttl_secs now_ms : Nat) (new_mailbox_id : String)
    (s : Store) (rendezvous_id_b64 : String) :
    Store × Except RendezvousError ConnectionInitResponse :=
  let expires_ms := now_ms + mailbox_ttl_secs * 1000
  let mailbox_state : MailboxState :=
    { mailbox_id := new_mailbox_id, peer_mailbox_id := none,
      created_at_epoch_ms := now_ms, expires_at_epoch_ms := expires_ms }
  match save_mailbox_meta s mailbox_state mailbox_ttl_secs with
  | (s, .error _) => (s, .error .Redis)
  | (s, .ok _) =>
  match clear_mailbox_messages s new_mailbox_id with
  | (s, .error _) => (s, .error .Redis)
  | (s, .ok _) =>
  match save_rendezvous s rendezvous_id_b64 new_mailbox_id 300 with
  | (s, .error _) => (s, .error .Redis)
  | (s, .ok _) =>
    (s, .ok { mailbox_id := new_mailbox_id, expires_at_epoch_ms := expires_ms })

/-- `RendezvousService::join_connection`.  Returns the join response, the
initiator's mailbox id and the join message (serialized to JSON in Rust). -/
def join_connection (mailbox_ttl_secs now_ms : Nat) (new_responder_id : String)
    (s : Store) (token_b64 : String) :
    Store × Except RendezvousError (ConnectionJoinResponse × String × MailboxMessageStored) :=
  match get_and_delete_rendezvous s token_b64 with
  | (s, .error _) => (s, .error .Redis)
  | (s, .ok none) => (s, .error .InvalidToken)
  | (s, .ok (some initiator_mailbox_id)) =>
  match get_mailbox_meta s initiator_mailbox_id with
  | (s, .error _) => (s, .error .Redis)
  | (s, .ok none) => (s, .error .MailboxNotFound)
  | (s, .ok (some st)) =>
  if st.peer_mailbox_id.isSome then (s, .error .SessionAlreadyPaired) else
  let initiator_state := { st with peer_mailbox_id := some new_responder_id }
  match save_mailbox_meta s initiator_state mailbox_ttl_secs with
  | (s, .error _) => (s, .error .Redis)
  | (s, .ok _) =>
  let responder_state : MailboxState :=
    { mailbox_id := new_responder_id,
      peer_mailbox_id := some initiator_mailbox_id,
      created_at_epoch_ms := initiator_state.created_at_epoch_ms,
      expires_at_epoch_ms := initiator_state.expires_at_epoch_ms }
  match save_mailbox_meta s responder_state mailbox_ttl_secs with
  | (s, .error _) => (s, .error .Redis)
  | (s, .ok _) =>
  match clear_mailbox_messages s new_responder_id with
  | (s, .error _) => (s, .error .Redis)
  | (s, .ok _) =>
  match get_message_count s initiator_mailbox_id with
  | (s, .error _) => (s, .error .Redis)
  | (s, .ok seq) =>
  let join_msg : MailboxMessageStored :=
    { from_mailbox_id := new_responder_id, ciphertext_b64 := "",
      sequence := seq, timestamp_epoch_ms := now_ms }
  match push_message s initiator_mailbox_id join_msg mailbox_ttl_secs with
  | (s, .error _) => (s, .error .Redis)
  | (s, .ok _) =>
    (s, .ok ({ mailbox_id := new_responder_id,
               expires_at_epoch_ms := responder_state.expires_at_epoch_ms },
             initiator_mailbox_id, join_msg))

/-- `RendezvousService::send_message`.  Returns the peer mailbox id and the
stored message (serialized to JSON in Rust). -/
def send_message (mailbox_ttl_secs now_ms : Nat) (s : Store)
    (mailbox_id ciphertext_b64 : String) :
    Store × Except RendezvousError (String × MailboxMessageStored) :=
  match get_mailbox_meta s mailbox_id with
  | (s, .error _) => (s, .error .Redis)
  | (s, .ok none) => (s, .error .MailboxNotFound)
  | (s, .ok (some mailbox_state)) =>
  match mailbox_state.peer_mailbox_id with
  | none => (s, .error .NoPeerConnected)
  | some peer_mailbox_id =>
  if mailbox_state.expires_at_epoch_ms ≤ now_ms then (s, .error .SessionExpired) else
  match get_message_count s peer_mailbox_id with
  | (s, .error _) => (s, .error .Redis)
  | (s, .ok seq) =>
  let msg : MailboxMessageStored :=
    { from_mailbox_id := mailbox_id, ciphertext_b64 := ciphertext_b64,
      sequence := seq, timestamp_epoch_ms := now_ms }
  match push_message s peer_mailbox_id msg mailbox_ttl_secs with
  | (s, .error _) => (s, .error .Redis)
  | (s, .ok _) => (s, .ok (peer_mailbox_id, msg))

/-- The projection `MailboxMessageStored → MailboxMessage` performed inside
`recv_messages`. -/
def storedToMessage (s : MailboxMessageStored) : MailboxMessage :=
  { from_mailbox_id := s.from_mailbox_id, ciphertext_b64 := s.ciphertext_b64,
    sequence := s.sequence, timestamp_epoch_ms := s.timestamp_epoch_ms }

/-- `RendezvousService::recv_messages`. -/
def recv_messages (s : Store) (mailbox_id : String) :
    Store × Except RendezvousError MailboxRecvResponse :=
  match get_mailbox_meta s mailbox_id with
  | (s, .error _) => (s, .error .Redis)
  | (s, .ok none) => (s, .error .MailboxNotFound)
  | (s, .ok (some _)) =>
  match get_messages s mailbox_id with
  | (s, .error _) => (s, .error .Redis)
  | (s, .ok stored_msgs) =>
  let messages := stored_msgs.map storedToMessage
  let last_sequence := ((messages.getLast?).map (fun m => m.sequence)).getD 0
  (s, .ok { messages := messages, last_sequence := last_sequence })

/-- `RendezvousService::verify_mailbox`. -/
def verify_mailbox (s : Store) (mailbox_id : String) :
    Store × Except RendezvousError Unit :=
  match get_mailbox_meta s mailbox_id with
  | (s, .error _) => (s, .error .Redis)
  | (s, .ok none) => (s, .error .MailboxNotFound)
  | (s, .ok (some _)) => (s, .ok ())

/-- `rendezvous_err` from `server.rs`: the HTTP status code assigned to
each `RendezvousError`. -/
def rendezvous_err : RendezvousError → Nat
  | .MailboxNotFound => 404
  | .SessionExpired => 410
  | .InvalidToken => 404
  | .SessionAlreadyPaired => 409
  | .NoPeerConnected => 409
  | .Redis => 500

/-- One API operation against the rendezvous service, carrying the
clock value and the freshly generated mailbox id where the code consults
them. -/
inductive Op where
  | opInit (now_ms : Nat) (freshId : String) (token : String)
  | opJoin (now_ms : Nat) (freshId : String) (token : String)
  | opSend (now_ms : Nat) (mailbox_id : String) (ciphertext : String)
  | opRecv (mailbox_id : String)
deriving DecidableEq, Repr

/-- The store after executing one operation (the response is dropped). -/
def applyOp (mailbox_ttl_secs : Nat) (s : Store) : Op → Store
  | .opInit now id t => (init_connection mailbox_ttl_secs now id s t).1
  | .opJoin now id t => (join_connection mailbox_ttl_secs now id s t).1
  | .opSend now m c => (send_message mailbox_ttl_secs now s m c).1
  | .opRecv m => (recv_messages s m).1

/-- The store after a sequential run of operations. -/
def runOps (mailbox_ttl_secs : Nat) (s : Store) (ops : List Op) : Store :=
  ops.foldl (applyOp mailbox_ttl_secs) s

/-! Fault-free reductions: when the fault schedule is empty every Redis
command succeeds and leaves the schedule empty. -/

theorem takeFault_nil {s : Store} (h : s.faults = []) : takeFault s = (false, s) := by
  simp [takeFault, h]

theorem save_mailbox_meta_nf {s : Store} (h : s.faults = []) (st : MailboxState)
    (ttl : Nat) :
    save_mailbox_meta s st ttl =
      ({ s with metas := setKey st.mailbox_id (st, ttl) s.metas }, .ok ()) := by
  simp [save_mailbox_meta, takeFault_nil h]

theorem get_mailbox_meta_nf {s : Store} (h : s.faults = []) (m : String) :
    get_mailbox_meta s m = (s, .ok ((getKey m s.metas).map Prod.fst)) := by
  simp [get_mailbox_meta, takeFault_nil h]

theorem clear_mailbox_messages_nf {s : Store} (h : s.faults = []) (m : String) :
    clear_mailbox_messages s m = ({ s with lists := delKey m s.lists }, .ok ()) := by
  simp [clear_mailbox_messages, takeFault_nil h]

theorem save_rendezvous_nf {s : Store} (h : s.faults = []) (t m : String) (ttl : Nat) :
    save_rendezvous s t m ttl =
      ({ s with rendezvous := setKey t (m, ttl) s.rendezvous }, .ok ()) := by
  simp [save_rendezvous, takeFault_nil h]

theorem get_and_delete_rendezvous_nf_none {s : Store} (h : s.faults = []) {t : String}
    (hr : getKey t s.rendezvous = none) :
    get_and_delete_rendezvous s t = (s, .ok none) := by
  simp [get_and_delete_rendezvous, takeFault_nil h, hr]

theorem get_and_delete_rendezvous_nf_some {s : Store} (h : s.faults = []) {t m : String}
    {ttl : Nat} (hr : getKey t s.rendezvous = some (m, ttl)) :
    get_and_delete_rendezvous s t =
      ({ s with rendezvous := delKey t s.rendezvous }, .ok (some m)) := by
  simp [get_and_delete_rendezvous, takeFault_nil h, hr]

theorem get_message_count_nf {s : Store} (h : s.faults = []) (m : String) :
    get_message_count s m = (s, .ok ((getKey m s.lists).getD []).length) := by
  simp [get_message_count, takeFault_nil h]

theorem push_message_nf {s : Store} (h : s.faults = []) (m : String)
    (msg : MailboxMessageStored) (ttl : Nat) :
    push_message s m msg ttl =
      ({ s with lists :=
          setKey m (((getKey m s.lists).getD []) ++ [RawEntry.valid msg]) s.lists }, .ok ()) := by
  have h2 : ∀ L : List (String × List RawEntry),
      ({ s with lists := L } : Store).faults = [] := fun _ => h
  simp [push_message, takeFault_nil h, takeFault_nil (h2 _)]

theorem get_messages_nf {s : Store} (h : s.faults = []) (m : String) :
    get_messages s m =
      (s, .ok (((getKey m s.lists).getD []).filterMap parseEntry)) := by
  simp [get_messages, takeFault_nil h]

/-! Fault-free characterizations of the four service operations. -/

/-- The mailbox metadata written by `init_connection`. -/
def initMeta (mailbox_ttl_secs now_ms : Nat) (new_mailbox_id : String) : MailboxState :=
  { mailbox_id := new_mailbox_id, peer_mailbox_id := none,
    created_at_epoch_ms := now_ms,
    expires_at_epoch_ms := now_ms + mailbox_ttl_secs * 1000 }

theorem init_connection_nf {s : Store} (h : s.faults = [])
    (ttl now : Nat) (id t : String) :
    init_connection ttl now id s t =
      ({ metas := setKey id (initMeta ttl now id, ttl) s.metas,
         lists := delKey id s.lists,
         rendezvous := setKey t (id, 300) s.rendezvous,
         faults := s.faults },
       .ok { mailbox_id := id, expires_at_epoch_ms := now + ttl * 1000 }) := by
  simp [init_connection, save_mailbox_meta, clear_mailbox_messages,
    save_rendezvous, takeFault_nil, h, initMeta]

/-- `join_connection` when the token has no rendezvous mapping. -/
theorem join_connection_invalid {s : Store} (h : s.faults = []) {t : String}
    (hr : getKey t s.rendezvous = none) (ttl now : Nat) (rid : String) :
    join_connection ttl now rid s t = (s, .error .InvalidToken) := by
  simp [join_connection, get_and_delete_rendezvous_nf_none h hr]

/-- The responder metadata written by `join_connection`. -/
def responderMeta (responder_id initiator_id : String) (stA : MailboxState) :
    MailboxState :=
  { mailbox_id := responder_id, peer_mailbox_id := some initiator_id,
    created_at_epoch_ms := stA.created_at_epoch_ms,
    expires_at_epoch_ms := stA.expires_at_epoch_ms }

/-- The synthetic peer-joined entry appended by `join_connection`. -/
def joinMsg (responder_id : String) (seq now_ms : Nat) : MailboxMessageStored :=
  { from_mailbox_id := responder_id, ciphertext_b64 := "",
    sequence := seq, timestamp_epoch_ms := now_ms }

/-- Fault-free successful `join_connection`: token mapped to an existing
unpaired initiator mailbox. -/
theorem join_connection_nf {s : Store} (h : s.faults = [])
    {t A : String} {ttlr : Nat} {stA : MailboxState} {ttlm : Nat}
    (hr : getKey t s.rendezvous = some (A, ttlr))
    (hm : getKey A s.metas = some (stA, ttlm))
    (hid : stA.mailbox_id = A)
    (hp : stA.peer_mailbox_id = none)
    (ttl now : Nat) (B : String) :
    join_connection ttl now B s t =
      ({ metas := setKey B (responderMeta B A stA, ttl)
            (setKey A ({ stA with peer_mailbox_id := some B }, ttl) s.metas),
         lists := setKey A (((getKey A (delKey B s.lists)).getD [])
            ++ [RawEntry.valid (joinMsg B ((getKey A (delKey B s.lists)).getD []).length now)])
            (delKey B s.lists),
         rendezvous := delKey t s.rendezvous,
         faults := s.faults },
       .ok ({ mailbox_id := B, expires_at_epoch_ms := stA.expires_at_epoch_ms },
            A,
            joinMsg B ((getKey A (delKey B s.lists)).getD []).length now)) := by
  simp [join_connection, get_and_delete_rendezvous, get_mailbox_meta,
    save_mailbox_meta, clear_mailbox_messages, get_message_count, push_message,
    takeFault_nil, h, hr, hm, hid, hp, responderMeta, joinMsg]

/-- `send_message` when the mailbox exists but has no peer: fails with
`NoPeerConnected` and the store is unchanged. -/
theorem send_message_no_peer {s : Store} (h : s.faults = []) {m : String}
    {st : MailboxState} {ttlm : Nat}
    (hm : getKey m s.metas = some (st, ttlm))
    (hp : st.peer_mailbox_id = none)
    (ttl now : Nat) (ct : String) :
    send_message ttl now s m ct = (s, .error .NoPeerConnected) := by
  simp [send_message, get_mailbox_meta, takeFault_nil, h, hm, hp]

/-- `send_message` when the mailbox has a peer but the absolute expiry has
passed: fails with `SessionExpired` and the store is unchanged. -/
theorem send_message_expired {s : Store} (h : s.faults = []) {m p : String}
    {st : MailboxState} {ttlm : Nat}
    (hm : getKey m s.metas = some (st, ttlm))
    (hp : st.peer_mailbox_id = some p)
    {now : Nat} (hexp : st.expires_at_epoch_ms ≤ now) (ttl : Nat) (ct : String) :
    send_message ttl now s m ct = (s, .error .SessionExpired) := by
  simp [send_message, get_mailbox_meta, takeFault_nil, h, hm, hp, hexp]

/-- The entry appended by `send_message`. -/
def sendMsg (from_id ct : String) (seq now_ms : Nat) : MailboxMessageStored :=
  { from_mailbox_id := from_id, ciphertext_b64 := ct,
    sequence := seq, timestamp_epoch_ms := now_ms }

/-- Fault-free successful `send_message`: appends to the peer list with
sequence equal to the peer list's current raw length. -/
theorem send_message_nf {s : Store} (h : s.faults = []) {m p : String}
    {st : MailboxState} {ttlm : Nat}
    (hm : getKey m s.metas = some (st, ttlm))
    (hp : st.peer_mailbox_id = some p)
    {now : Nat} (hexp : now < st.expires_at_epoch_ms) (ttl : Nat) (ct : String) :
    send_message ttl now s m ct =
      ({ metas := s.metas,
         lists := setKey p (((getKey p s.lists).getD [])
            ++ [RawEntry.valid (sendMsg m ct ((getKey p s.lists).getD []).length now)])
            s.lists,
         rendezvous := s.rendezvous,
         faults := s.faults },
       .ok (p, sendMsg m ct ((getKey p s.lists).getD []).length now)) := by
  simp [send_message, get_mailbox_meta, get_message_count, push_message,
    takeFault_nil, h, hm, hp, Nat.not_le.mpr hexp, sendMsg]

/-- Fault-free `recv_messages` on an existing mailbox: returns the
parseable entries of the raw list, in list order, and leaves the store
unchanged. -/
theorem recv_messages_nf {s : Store} (h : s.faults = []) {m : String}
    {st : MailboxState} {ttlm : Nat}
    (hm : getKey m s.metas = some (st, ttlm)) :
    recv_messages s m =
      (s, .ok { messages := (((getKey m s.lists).getD []).filterMap parseEntry).map storedToMessage,
                last_sequence := (((((getKey m s.lists).getD []).filterMap parseEntry).map storedToMessage).getLast?.map (fun x => x.sequence)).getD 0 }) := by
  simp [recv_messages, get_mailbox_meta, get_messages, takeFault_nil, h, hm]

/-- `recv_messages` never changes the mailbox data (it may only consume
transport-fault flags). -/
theorem recv_messages_preserves_data (s : Store) (m : String) :
    (recv_messages s m).1.metas = s.metas ∧ (recv_messages s m).1.lists = s.lists ∧
    (recv_messages s m).1.rendezvous = s.rendezvous := by
  rcases s with ⟨M, L, R, F⟩
  rcases F with _ | ⟨b, rest⟩
  · rcases hm : getKey m M with _ | st <;>
      simp [recv_messages, get_mailbox_meta, get_messages, takeFault, hm]
  · cases b
    · rcases hm : getKey m M with _ | st
      · simp [recv_messages, get_mailbox_meta, get_messages, takeFault, hm]
      · rcases rest with _ | ⟨b2, rest2⟩
        · simp [recv_messages, get_mailbox_meta, get_messages, takeFault, hm]
        · cases b2 <;>
            simp [recv_messages, get_mailbox_meta, get_messages, takeFault, hm]
    · simp [recv_messages, get_mailbox_meta, get_messages, takeFault]

/-! Preservation lemmas along operation traces. -/

theorem getKey_delKey_none {α : Type} {k : String} (k2 : String)
    {l : List (String × α)} (h : getKey k l = none) :
    getKey k (delKey k2 l) = none := by
  by_cases hk : k2 = k
  · subst hk
    exact getKey_delKey_self k2 l
  · rw [getKey_delKey_ne l hk]
    exact h

theorem join_connection_faults {s : Store} (h : s.faults = [])
    (ttl now : Nat) (B t : String) :
    (join_connection ttl now B s t).1.faults = [] := by
  rcases hr : getKey t s.rendezvous with _ | ⟨A, ttlr⟩
  · simp [join_connection_invalid h hr, h]
  · rcases hm : getKey A s.metas with _ | ⟨stA, ttlm⟩
    · simp [join_connection, get_and_delete_rendezvous, get_mailbox_meta,
        takeFault_nil, h, hr, hm]
    · by_cases hp : stA.peer_mailbox_id.isSome
      · simp [join_connection, get_and_delete_rendezvous, get_mailbox_meta,
          takeFault_nil, h, hr, hm, hp]
      · simp [join_connection, get_and_delete_rendezvous, get_mailbox_meta,
          save_mailbox_meta, clear_mailbox_messages, get_message_count,
          push_message, takeFault_nil, h, hr, hm, hp]

theorem send_message_faults {s : Store} (h : s.faults = [])
    (ttl now : Nat) (m ct : String) :
    (send_message ttl now s m ct).1.faults = [] := by
  rcases hm : getKey m s.metas with _ | ⟨st, ttlm⟩
  · simp [send_message, get_mailbox_meta, takeFault_nil, h, hm]
  · rcases hp : st.peer_mailbox_id with _ | p
    · simp [send_message, get_mailbox_meta, takeFault_nil, h, hm, hp]
    · by_cases hexp : st.expires_at_epoch_ms ≤ now
      · simp [send_message, get_mailbox_meta, takeFault_nil, h, hm, hp, hexp]
      · simp [send_message, get_mailbox_meta, get_message_count, push_message,
          takeFault_nil, h, hm, hp, hexp]

theorem recv_messages_faults {s : Store} (h : s.faults = []) (m : String) :
    (recv_messages s m).1.faults = [] := by
  rcases hm : getKey m s.metas with _ | ⟨st, ttlm⟩
  · simp [recv_messages, get_mailbox_meta, takeFault_nil, h, hm]
  · simp [recv_messages_nf h hm, h]

theorem applyOp_faults {s : Store} (h : s.faults = []) (ttl : Nat) (op : Op) :
    (applyOp ttl s op).faults = [] := by
  cases op with
  | opInit now id t => simp [applyOp, init_connection_nf h, h]
  | opJoin now id t => exact join_connection_faults h ttl now id t
  | opSend now m c => exact send_message_faults h ttl now m c
  | opRecv m => exact recv_messages_faults h m

theorem runOps_faults {s : Store} (h : s.faults = []) (ttl : Nat) (L : List Op) :
    (runOps ttl s L).faults = [] := by
  induction L generalizing s with
  | nil => exact h
  | cons op L ih => exact ih (applyOp_faults h ttl op)

/-- After any fault-free `join_connection` on token `t`, the rendezvous
mapping for `t` is absent (it is either consumed or was never there). -/
theorem join_rend_none_after {s : Store} (h : s.faults = [])
    (ttl now : Nat) (B t : String) :
    getKey t (join_connection ttl now B s t).1.rendezvous = none := by
  rcases hr : getKey t s.rendezvous with _ | ⟨A, ttlr⟩
  · simp [join_connection_invalid h hr, hr]
  · rcases hm : getKey A s.metas with _ | ⟨stA, ttlm⟩
    · simp [join_connection, get_and_delete_rendezvous, get_mailbox_meta,
        takeFault_nil, h, hr, hm, getKey_delKey_self]
    · by_cases hp : stA.peer_mailbox_id.isSome
      · simp [join_connection, get_and_delete_rendezvous, get_mailbox_meta,
          takeFault_nil, h, hr, hm, hp, getKey_delKey_self]
      · simp [join_connection, get_and_delete_rendezvous, get_mailbox_meta,
          save_mailbox_meta, clear_mailbox_messages, get_message_count,
          push_message, takeFault_nil, h, hr, hm, hp, getKey_delKey_self]

/-- Any operation other than an `init` on token `t` keeps the rendezvous
mapping for `t` absent. -/
theorem applyOp_rend_none {s : Store} (h : s.faults = []) {t : String}
    (hn : getKey t s.rendezvous = none) (ttl : Nat) (op : Op)
    (hop : ∀ now id, op ≠ Op.opInit now id t) :
    getKey t (applyOp ttl s op).rendezvous = none := by
  cases op with
  | opInit now id t2 =>
    have ht : t2 ≠ t := by
      intro hEq
      exact hop now id (by rw [hEq])
    simp [applyOp, init_connection_nf h, getKey_setKey_ne _ _ ht, hn]
  | opJoin now id t2 =>
    rcases hr : getKey t2 s.rendezvous with _ | ⟨A, ttlr⟩
    · simp [applyOp, join_connection_invalid h hr, hn]
    · rcases hm : getKey A s.metas with _ | ⟨stA, ttlm⟩
      · simp [applyOp, join_connection, get_and_delete_rendezvous,
          get_mailbox_meta, takeFault_nil, h, hr, hm, getKey_delKey_none t2 hn]
      · by_cases hp : stA.peer_mailbox_id.isSome
        · simp [applyOp, join_connection, get_and_delete_rendezvous,
            get_mailbox_meta, takeFault_nil, h, hr, hm, hp,
            getKey_delKey_none t2 hn]
        · simp [applyOp, join_connection, get_and_delete_rendezvous,
            get_mailbox_meta, save_mailbox_meta, clear_mailbox_messages,
            get_message_count, push_message, takeFault_nil, h, hr, hm, hp,
            getKey_delKey_none t2 hn]
  | opSend now m c =>
    rcases hm : getKey m s.metas with _ | ⟨st, ttlm⟩
    · simp [applyOp, send_message, get_mailbox_meta, takeFault_nil, h, hm, hn]
    · rcases hp : st.peer_mailbox_id with _ | p
      · simp [applyOp, send_message, get_mailbox_meta, takeFault_nil, h, hm, hp, hn]
      · by_cases hexp : st.expires_at_epoch_ms ≤ now
        · simp [applyOp, send_message, get_mailbox_meta, takeFault_nil, h,
            hm, hp, hexp, hn]
        · simp [applyOp, send_message, get_mailbox_meta, get_message_count,
            push_message, takeFault_nil, h, hm, hp, hexp, hn]
  | opRecv m =>
    have hd := recv_messages_preserves_data s m
    simp [applyOp, hd.2.2, hn]

/-- `applyOp_rend_none`, lifted to traces. -/
theorem runOps_rend_none {s : Store} (h : s.faults = []) {t : String}
    (hn : getKey t s.rendezvous = none) (ttl : Nat) (L : List Op)
    (hL : ∀ op ∈ L, ∀ now id, op ≠ Op.opInit now id t) :
    getKey t (runOps ttl s L).rendezvous = none := by
  induction L generalizing s with
  | nil => exact hn
  | cons op L ih =>
    exact ih (applyOp_faults h ttl op)
      (applyOp_rend_none h hn ttl op (hL op (List.mem_cons_self op L)))
      (fun o ho => hL o (List.mem_cons_of_mem op ho))

/-! Remaining fault-free error-branch characterizations. -/

theorem join_connection_notfound {s : Store} (h : s.faults = []) {t A : String}
    {ttlr : Nat} (hr : getKey t s.rendezvous = some (A, ttlr))
    (hm : getKey A s.metas = none) (ttl now : Nat) (B : String) :
    join_connection ttl now B s t =
      ({ s with rendezvous := delKey t s.rendezvous }, .error .MailboxNotFound) := by
  simp [join_connection, get_and_delete_rendezvous, get_mailbox_meta,
    takeFault_nil, h, hr, hm]

theorem join_connection_paired {s : Store} (h : s.faults = []) {t A : String}
    {ttlr : Nat} (hr : getKey t s.rendezvous = some (A, ttlr))
    {stA : MailboxState} {ttlm : Nat} (hm : getKey A s.metas = some (stA, ttlm))
    (hp : stA.peer_mailbox_id.isSome) (ttl now : Nat) (B : String) :
    join_connection ttl now B s t =
      ({ s with rendezvous := delKey t s.rendezvous }, .error .SessionAlreadyPaired) := by
  simp [join_connection, get_and_delete_rendezvous, get_mailbox_meta,
    takeFault_nil, h, hr, hm, hp]

theorem send_message_notfound {s : Store} (h : s.faults = []) {m : String}
    (hm : getKey m s.metas = none) (ttl now : Nat) (ct : String) :
    send_message ttl now s m ct = (s, .error .MailboxNotFound) := by
  simp [send_message, get_mailbox_meta, takeFault_nil, h, hm]

theorem recv_messages_notfound {s : Store} (h : s.faults = []) {m : String}
    (hm : getKey m s.metas = none) :
    recv_messages s m = (s, .error .MailboxNotFound) := by
  simp [recv_messages, get_mailbox_meta, takeFault_nil, h, hm]

/-! Store invariants: stored metadata carries its own key, peer links are
immutable once set, message lists are dense. -/

/-- Every stored `MailboxState` is keyed by its own `mailbox_id` (the
repository always writes a state under `meta_key(state.mailbox_id)`). -/
def metasShaped (s : Store) : Prop :=
  ∀ k st ttl2, getKey k s.metas = some (st, ttl2) → st.mailbox_id = k

theorem metasShaped_setKey {M : List (String × (MailboxState × Nat))}
    (hs : ∀ k st ttl2, getKey k M = some (st, ttl2) → st.mailbox_id = k)
    (st : MailboxState) (ttl2 : Nat) {k0 : String} (hst : st.mailbox_id = k0) :
    ∀ k st2 ttl3, getKey k (setKey k0 (st, ttl2) M) = some (st2, ttl3) →
      st2.mailbox_id = k := by
  intro k st2 ttl3 hk
  by_cases hkk : k0 = k
  · subst hkk
    rw [getKey_setKey_self] at hk
    cases hk
    exact hst
  · rw [getKey_setKey_ne _ _ hkk] at hk
    exact hs k st2 ttl3 hk

theorem applyOp_metasShaped {s : Store} (h : s.faults = [])
    (hs : metasShaped s) (ttl : Nat) (op : Op) :
    metasShaped (applyOp ttl s op) := by
  cases op with
  | opInit now id t =>
    simp only [applyOp, init_connection_nf h]
    exact metasShaped_setKey hs (initMeta ttl now id) ttl rfl
  | opJoin now B t =>
    rcases hr : getKey t s.rendezvous with _ | ⟨A, ttlr⟩
    · simp only [applyOp, join_connection_invalid h hr]
      exact hs
    · rcases hm : getKey A s.metas with _ | ⟨stA, ttlm⟩
      · simp only [applyOp, join_connection_notfound h hr hm]
        exact hs
      · by_cases hp : stA.peer_mailbox_id.isSome
        · simp only [applyOp, join_connection_paired h hr hm hp]
          exact hs
        · have hid : stA.mailbox_id = A := hs A stA ttlm hm
          have hpn : stA.peer_mailbox_id = none := by
            rcases hq : stA.peer_mailbox_id with _ | q
            · rfl
            · simp [hq] at hp
          simp only [applyOp, join_connection_nf h hr hm hid hpn]
          intro k st2 ttl3 hk
          exact metasShaped_setKey
            (metasShaped_setKey hs { stA with peer_mailbox_id := some B } ttl hid)
            (responderMeta B A stA) ttl rfl k st2 ttl3 hk
  | opSend now m c =>
    rcases hm : getKey m s.metas with _ | ⟨st, ttlm⟩
    · simp only [applyOp, send_message_notfound h hm]
      exact hs
    · rcases hp : st.peer_mailbox_id with _ | p
      · simp only [applyOp, send_message_no_peer h hm hp]
        exact hs
      · by_cases hexp : st.expires_at_epoch_ms ≤ now
        · simp only [applyOp, send_message_expired h hm hp hexp]
          exact hs
        · simp only [applyOp, send_message_nf h hm hp (Nat.not_le.mp hexp)]
          exact hs
  | opRecv m =>
    have hd := recv_messages_preserves_data s m
    intro k st2 ttl3 hk
    rw [applyOp, hd.1] at hk
    exact hs k st2 ttl3 hk

/-- Freshness of the generated mailbox id consumed by an operation: a
high-entropy id never collides with an existing mailbox key. -/
def freshOk (s : Store) : Op → Prop
  | .opInit _ id _ => getKey id s.metas = none
  | .opJoin _ id _ => getKey id s.metas = none
  | .opSend _ _ _ => True
  | .opRecv _ => True

/-- Every operation of a trace uses a fresh generated id for the store it
executes against. -/
def FreshTrace (ttl : Nat) : Store → List Op → Prop
  | _, [] => True
  | s, op :: L => freshOk s op ∧ FreshTrace ttl (applyOp ttl s op) L

/-- One step of peer-link persistence: once `peer_mailbox_id` is set it is
never changed by any later operation (with fresh generated ids). -/
theorem applyOp_peer_persist {s : Store} (h : s.faults = []) (hs : metasShaped s)
    {m p : String} {st : MailboxState} {ttlm : Nat}
    (hm : getKey m s.metas = some (st, ttlm))
    (hp : st.peer_mailbox_id = some p)
    (ttl : Nat) (op : Op) (hfresh : freshOk s op) :
    ∃ st2 ttl2, getKey m (applyOp ttl s op).metas = some (st2, ttl2) ∧
      st2.peer_mailbox_id = some p := by
  cases op with
  | opInit now id t =>
    have hne : id ≠ m := by
      intro hEq
      have hfr : getKey id s.metas = none := hfresh
      rw [hEq, hm] at hfr
      cases hfr
    refine ⟨st, ttlm, ?_, hp⟩
    simp only [applyOp, init_connection_nf h]
    exact (getKey_setKey_ne _ _ hne).trans hm
  | opJoin now B t =>
    have hBne : B ≠ m := by
      intro hEq
      have hfr : getKey B s.metas = none := hfresh
      rw [hEq, hm] at hfr
      cases hfr
    rcases hr : getKey t s.rendezvous with _ | ⟨A, ttlr⟩
    · refine ⟨st, ttlm, ?_, hp⟩
      simp only [applyOp, join_connection_invalid h hr]
      exact hm
    · rcases hmA : getKey A s.metas with _ | ⟨stA, ttlmA⟩
      · refine ⟨st, ttlm, ?_, hp⟩
        simp only [applyOp, join_connection_notfound h hr hmA]
        exact hm
      · by_cases hpA : stA.peer_mailbox_id.isSome
        · refine ⟨st, ttlm, ?_, hp⟩
          simp only [applyOp, join_connection_paired h hr hmA hpA]
          exact hm
        · have hid : stA.mailbox_id = A := hs A stA ttlmA hmA
          have hpn : stA.peer_mailbox_id = none := by
            rcases hq : stA.peer_mailbox_id with _ | q
            · rfl
            · simp [hq] at hpA
          have hAne : A ≠ m := by
            intro hEq
            rw [hEq, hm] at hmA
            cases hmA
            rw [hpn] at hp
            cases hp
          refine ⟨st, ttlm, ?_, hp⟩
          simp only [applyOp, join_connection_nf h hr hmA hid hpn]
          exact (getKey_setKey_ne _ _ hBne).trans
            ((getKey_setKey_ne _ _ hAne).trans hm)
  | opSend now m2 c =>
    refine ⟨st, ttlm, ?_, hp⟩
    rcases hm2 : getKey m2 s.metas with _ | ⟨st2, ttlm2⟩
    · simp only [applyOp, send_message_notfound h hm2]
      exact hm
    · rcases hp2 : st2.peer_mailbox_id with _ | p2
      · simp only [applyOp, send_message_no_peer h hm2 hp2]
        exact hm
      · by_cases hexp : st2.expires_at_epoch_ms ≤ now
        · simp only [applyOp, send_message_expired h hm2 hp2 hexp]
          exact hm
        · simp only [applyOp, send_message_nf h hm2 hp2 (Nat.not_le.mp hexp)]
          exact hm
  | opRecv m2 =>
    refine ⟨st, ttlm, ?_, hp⟩
    rw [applyOp, (recv_messages_preserves_data s m2).1]
    exact hm

/-- Peer-link persistence along a whole trace. -/
theorem runOps_peer_persist {s : Store} (h : s.faults = []) (hs : metasShaped s)
    {m p : String} {st : MailboxState} {ttlm : Nat}
    (hm : getKey m s.metas = some (st, ttlm))
    (hp : st.peer_mailbox_id = some p)
    (ttl : Nat) (L : List Op) (hL : FreshTrace ttl s L) :
    ∃ st2 ttl2, getKey m (runOps ttl s L).metas = some (st2, ttl2) ∧
      st2.peer_mailbox_id = some p := by
  induction L generalizing s st ttlm with
  | nil => exact ⟨st, ttlm, hm, hp⟩
  | cons op L ih =>
    obtain ⟨hf, hL2⟩ := hL
    obtain ⟨st2, ttl2, hm2, hp2⟩ := applyOp_peer_persist h hs hm hp ttl op hf
    exact ih (applyOp_faults h ttl op) (applyOp_metasShaped h hs ttl op) hm2 hp2 hL2

/-- The sequence number stored in a raw entry, when it parses. -/
def entrySeq (e : RawEntry) : Option Nat :=
  (parseEntry e).map (fun m => m.sequence)

/-- A mailbox list is dense: all entries parse and their `sequence` values
are exactly the positions `0, 1, …, length − 1`, in order. -/
def denseList (l : List RawEntry) : Prop :=
  l.map entrySeq = (List.range l.length).map some

/-- Every mailbox list in the store is dense. -/
def listsDense (s : Store) : Prop :=
  ∀ k l, getKey k s.lists = some l → denseList l

theorem denseList_nil : denseList [] := rfl

theorem denseList_append {l : List RawEntry} (hd : denseList l)
    {m : MailboxMessageStored} (hm : m.sequence = l.length) :
    denseList (l ++ [RawEntry.valid m]) := by
  unfold denseList at hd ⊢
  simp [List.range_succ, hd, entrySeq, parseEntry, hm]

theorem getKey_delKey_cases {α : Type} (k k2 : String) (L : List (String × α)) :
    getKey k (delKey k2 L) = none ∨ getKey k (delKey k2 L) = getKey k L := by
  by_cases h : k2 = k
  · subst h
    exact Or.inl (getKey_delKey_self k2 L)
  · exact Or.inr (getKey_delKey_ne L h)

theorem listsDense_delKey {L : List (String × List RawEntry)}
    (hd : ∀ k l, getKey k L = some l → denseList l) (k2 : String) :
    ∀ k l, getKey k (delKey k2 L) = some l → denseList l := by
  intro k l hk
  rcases getKey_delKey_cases k k2 L with hc | hc
  · rw [hc] at hk
    cases hk
  · rw [hc] at hk
    exact hd k l hk

/-- The list read before an append is dense (a missing key reads as the
empty list). -/
theorem denseList_getD {L : List (String × List RawEntry)}
    (hd : ∀ k l, getKey k L = some l → denseList l) (k : String) :
    denseList ((getKey k L).getD []) := by
  rcases hk : getKey k L with _ | l
  · exact denseList_nil
  · exact hd k l hk

theorem listsDense_append_setKey {L : List (String × List RawEntry)}
    (hd : ∀ k l, getKey k L = some l → denseList l) (k2 : String)
    {m : MailboxMessageStored} (hm : m.sequence = ((getKey k2 L).getD []).length) :
    ∀ k l, getKey k (setKey k2 (((getKey k2 L).getD []) ++ [RawEntry.valid m]) L) = some l →
      denseList l := by
  intro k l hk
  by_cases hkk : k2 = k
  · subst hkk
    rw [getKey_setKey_self] at hk
    cases hk
    exact denseList_append (denseList_getD hd k2) hm
  · rw [getKey_setKey_ne _ _ hkk] at hk
    exact hd k l hk

/-- Every operation preserves denseness of all mailbox lists: each append
assigns `sequence = LLEN` of the raw list, and lists are only ever cleared
or appended to. -/
theorem applyOp_dense {s : Store} (h : s.faults = []) (hs : metasShaped s)
    (hd : listsDense s) (ttl : Nat) (op : Op) : listsDense (applyOp ttl s op) := by
  cases op with
  | opInit now id t =>
    simp only [applyOp, init_connection_nf h]
    exact listsDense_delKey hd id
  | opJoin now B t =>
    rcases hr : getKey t s.rendezvous with _ | ⟨A, ttlr⟩
    · simp only [applyOp, join_connection_invalid h hr]
      exact hd
    · rcases hmA : getKey A s.metas with _ | ⟨stA, ttlmA⟩
      · simp only [applyOp, join_connection_notfound h hr hmA]
        exact hd
      · by_cases hpA : stA.peer_mailbox_id.isSome
        · simp only [applyOp, join_connection_paired h hr hmA hpA]
          exact hd
        · have hid : stA.mailbox_id = A := hs A stA ttlmA hmA
          have hpn : stA.peer_mailbox_id = none := by
            rcases hq2 : stA.peer_mailbox_id with _ | q
            · rfl
            · simp [hq2] at hpA
          simp only [applyOp, join_connection_nf h hr hmA hid hpn]
          exact listsDense_append_setKey (listsDense_delKey hd B) A rfl
  | opSend now m c =>
    rcases hm2 : getKey m s.metas with _ | ⟨st2, ttlm2⟩
    · simp only [applyOp, send_message_notfound h hm2]
      exact hd
    · rcases hp2 : st2.peer_mailbox_id with _ | p2
      · simp only [applyOp, send_message_no_peer h hm2 hp2]
        exact hd
      · by_cases hexp : st2.expires_at_epoch_ms ≤ now
        · simp only [applyOp, send_message_expired h hm2 hp2 hexp]
          exact hd
        · simp only [applyOp, send_message_nf h hm2 hp2 (Nat.not_le.mp hexp)]
          exact listsDense_append_setKey hd p2 rfl
  | opRecv m =>
    intro k l hk
    rw [applyOp, (recv_messages_preserves_data s m).2.1] at hk
    exact hd k l hk

/-- Denseness and the shape invariant along a whole trace. -/
theorem runOps_dense {s : Store} (h : s.faults = []) (hs : metasShaped s)
    (hd : listsDense s) (ttl : Nat) (L : List Op) :
    listsDense (runOps ttl s L) ∧ metasShaped (runOps ttl s L) := by
  induction L generalizing s with
  | nil => exact ⟨hd, hs⟩
  | cons op L ih =>
    exact ih (applyOp_faults h ttl op) (applyOp_metasShaped h hs ttl op)
      (applyOp_dense h hs hd ttl op)

/-- In a list whose entries carry the sequences `n, n+1, …`, the parsed
messages carry exactly those sequences, in order. -/
theorem filterMap_seq_of_range {l : List RawEntry} {n : Nat}
    (hl : l.map entrySeq = (List.range' n l.length).map some) :
    (l.filterMap parseEntry).map (fun m => m.sequence) = List.range' n l.length := by
  induction l generalizing n with
  | nil => simp
  | cons e rest ih =>
    rw [List.length_cons, List.range'_succ] at hl ⊢
    simp only [List.map_cons, List.cons.injEq] at hl
    obtain ⟨he, hrest⟩ := hl
    cases e with
    | valid m =>
      have hseq : m.sequence = n := by
        simpa [entrySeq, parseEntry] using he
      simp [parseEntry, hseq, ih hrest]
    | corrupt str =>
      simp [entrySeq, parseEntry] at he

/-- A dense list parses completely, to messages with sequences
`0, 1, …, length − 1` in order. -/
theorem denseList_filterMap {l : List RawEntry} (hd : denseList l) :
    (l.filterMap parseEntry).map (fun m => m.sequence) = List.range l.length := by
  rw [List.range_eq_range' l.length]
  exact filterMap_seq_of_range (by rw [← List.range_eq_range' l.length]; exact hd)

deriving instance DecidableEq for Except

/-! The ten claims. -/

/-- A store holding a live rendezvous mapping `"t" → "m1"`. -/
def cexStore2 : Store := ⟨[], [], [("t", ("m1", 300))], []⟩

/-- C2, counterexample: with a live rendezvous mapping `"t" → "m1"`, a second
`init_connection` with the same token succeeds (it does not fail with a
conflict) and silently replaces the mapping with the new mailbox id, because
`save_rendezvous` issues a plain `SETEX`. -/
theorem claim_C2_counterexample :
    (init_connection 600 5 "m2" cexStore2 "t").2
      = .ok { mailbox_id := "m2", expires_at_epoch_ms := 600005 } ∧
    getKey "t" (init_connection 600 5 "m2" cexStore2 "t").1.rendezvous
      = some ("m2", 300) := by
  decide

/-- C2, amended: `save_rendezvous` has unconditional-overwrite (`SETEX`)
semantics, not create-if-absent.  When a rendezvous mapping for token `t`
already exists, a second fault-free `init_connection` with `t` succeeds
(HTTP 200, no conflict error) and replaces the token-to-mailbox mapping
with the fresh mailbox id. -/
theorem claim_C2 {s : Store} (h : s.faults = []) {t m0 : String} {ttl0 : Nat}
    (hex : getKey t s.rendezvous = some (m0, ttl0)) (ttl now : Nat) (id : String) :
    (init_connection ttl now id s t).2
      = .ok { mailbox_id := id, expires_at_epoch_ms := now + ttl * 1000 } ∧
    getKey t (init_connection ttl now id s t).1.rendezvous = some (id, 300) := by
  simp [init_connection_nf h, getKey_setKey_self]

/-- C2, witness: the amended theorem applied to the counterexample's store. -/
theorem claim_C2_witness :
    (init_connection 600 5 "m2" cexStore2 "t").2
      = .ok { mailbox_id := "m2", expires_at_epoch_ms := 5 + 600 * 1000 } ∧
    getKey "t" (init_connection 600 5 "m2" cexStore2 "t").1.rendezvous
      = some ("m2", 300) := by
  have hex : getKey "t" cexStore2.rendezvous = some ("m1", 300) := by decide
  exact claim_C2 rfl hex 600 5 "m2"

/-- C5: on an existing mailbox, `send_message` fails with `NoPeerConnected`
(HTTP 409) whenever `peer_mailbox_id` is absent, and with `SessionExpired`
(HTTP 410) whenever the peer is present and `now_ms ≥ expires_at_epoch_ms`;
in both cases the returned store is exactly the input store (no list is
appended to, nothing changes). -/
theorem claim_C5 {s : Store} (h : s.faults = []) {m : String} {st : MailboxState}
    {ttlm : Nat} (hm : getKey m s.metas = some (st, ttlm))
    (ttl now : Nat) (ct : String) :
    (st.peer_mailbox_id = none →
      send_message ttl now s m ct = (s, .error .NoPeerConnected) ∧
      rendezvous_err .NoPeerConnected = 409) ∧
    (∀ p, st.peer_mailbox_id = some p → st.expires_at_epoch_ms ≤ now →
      send_message ttl now s m ct = (s, .error .SessionExpired) ∧
      rendezvous_err .SessionExpired = 410) :=
  ⟨fun hp => ⟨send_message_no_peer h hm hp ttl now ct, rfl⟩,
   fun _ hp hexp => ⟨send_message_expired h hm hp hexp ttl ct, rfl⟩⟩

/-- A store with an unpaired mailbox `"a"` and a paired mailbox `"b"`,
both expiring at epoch-ms 100. -/
def witStore5 : Store :=
  ⟨[("a", ({ mailbox_id := "a", peer_mailbox_id := none,
             created_at_epoch_ms := 0, expires_at_epoch_ms := 100 }, 600)),
    ("b", ({ mailbox_id := "b", peer_mailbox_id := some "a",
             created_at_epoch_ms := 0, expires_at_epoch_ms := 100 }, 600))], [], [], []⟩

/-- C5, witness: a send to the unpaired mailbox at `now = 50` and a send to
the paired mailbox at `now = 150 ≥ 100`. -/
theorem claim_C5_witness :
    (send_message 600 50 witStore5 "a" "x" = (witStore5, .error .NoPeerConnected) ∧
      rendezvous_err .NoPeerConnected = 409) ∧
    (send_message 600 150 witStore5 "b" "y" = (witStore5, .error .SessionExpired) ∧
      rendezvous_err .SessionExpired = 410) := by
  have hma : getKey "a" witStore5.metas
      = some ({ mailbox_id := "a", peer_mailbox_id := none,
                created_at_epoch_ms := 0, expires_at_epoch_ms := 100 }, 600) := by decide
  have hmb : getKey "b" witStore5.metas
      = some ({ mailbox_id := "b", peer_mailbox_id := some "a",
                created_at_epoch_ms := 0, expires_at_epoch_ms := 100 }, 600) := by decide
  exact ⟨(claim_C5 rfl hma 600 50 "x").1 rfl,
         (claim_C5 rfl hmb 600 150 "y").2 "a" rfl (by decide)⟩

/-- C7: `recv_messages` is idempotent and non-destructive.  On a fault-free
store with an existing mailbox it returns the store unchanged, so a second
consecutive `recv_messages` returns an equal response (equal `messages` and
equal `last_sequence`); and on any store at all it never modifies the
metadata, the message lists or the rendezvous mappings. -/
theorem claim_C7 {s : Store} (h : s.faults = []) {m : String} {st : MailboxState}
    {ttlm : Nat} (hm : getKey m s.metas = some (st, ttlm)) :
    (recv_messages s m).1 = s ∧
    recv_messages (recv_messages s m).1 m = recv_messages s m ∧
    (∀ s2 : Store, ∀ m2 : String, (recv_messages s2 m2).1.metas = s2.metas ∧
      (recv_messages s2 m2).1.lists = s2.lists ∧
      (recv_messages s2 m2).1.rendezvous = s2.rendezvous) := by
  have hr := recv_messages_nf h hm
  exact ⟨by rw [hr], by simp [hr], fun s2 m2 => recv_messages_preserves_data s2 m2⟩

/-- A store with one paired mailbox `"a"` holding one message. -/
def witStore7 : Store :=
  ⟨[("a", ({ mailbox_id := "a", peer_mailbox_id := some "b", created_at_epoch_ms := 0, expires_at_epoch_ms := 100 }, 600))],
   [("a", [RawEntry.valid { from_mailbox_id := "b", ciphertext_b64 := "x", sequence := 0, timestamp_epoch_ms := 3 }])],
   [], []⟩

/-- C7, witness: two consecutive receives on a concrete one-message store. -/
theorem claim_C7_witness :
    (recv_messages witStore7 "a").1 = witStore7 ∧
    recv_messages (recv_messages witStore7 "a").1 "a" = recv_messages witStore7 "a" := by
  have hm : getKey "a" witStore7.metas
      = some ({ mailbox_id := "a", peer_mailbox_id := some "b",
                created_at_epoch_ms := 0, expires_at_epoch_ms := 100 }, 600) := by decide
  exact ⟨(claim_C7 rfl hm).1, (claim_C7 rfl hm).2.1⟩

/-- C8, counterexample: with `mailbox_ttl_secs = 60`, `init_connection`
stores the rendezvous mapping with TTL 300 and the mailbox metadata with
TTL 60, so the rendezvous TTL is NOT strictly shorter than the configured
mailbox TTL. -/
theorem claim_C8_counterexample :
    getKey "t" (init_connection 60 0 "a" ⟨[], [], [], []⟩ "t").1.rendezvous
      = some ("a", 300) ∧
    getKey "a" (init_connection 60 0 "a" ⟨[], [], [], []⟩ "t").1.metas
      = some ({ mailbox_id := "a", peer_mailbox_id := none,
                created_at_epoch_ms := 0, expires_at_epoch_ms := 60000 }, 60) ∧
    ¬ (300 < 60) := by
  decide

/-- C8, amended: `init_connection` always stores the rendezvous mapping
with the hardcoded TTL 300 s (which is ≤ 5 minutes) and the mailbox
metadata with the configured `mailbox_ttl_secs`; the rendezvous TTL is
therefore strictly shorter than the mailbox TTL only when
`mailbox_ttl_secs > 300`, not for every configured value. -/
theorem claim_C8 {s : Store} (h : s.faults = []) (ttl now : Nat) (id t : String) :
    getKey t (init_connection ttl now id s t).1.rendezvous = some (id, 300) ∧
    getKey id (init_connection ttl now id s t).1.metas = some (initMeta ttl now id, ttl) ∧
    300 ≤ 5 * 60 := by
  simp [init_connection_nf h, getKey_setKey_self]

/-- C8, witness: the amended theorem at `mailbox_ttl_secs = 60 < 300`. -/
theorem claim_C8_witness :
    getKey "t" (init_connection 60 0 "a" ⟨[], [], [], []⟩ "t").1.rendezvous = some ("a", 300) ∧
    getKey "a" (init_connection 60 0 "a" ⟨[], [], [], []⟩ "t").1.metas
      = some (initMeta 60 0 "a", 60) ∧
    300 ≤ 5 * 60 :=
  claim_C8 (s := ⟨[], [], [], []⟩) rfl 60 0 "a" "t"

/-- A store whose mailbox `"a"` exists and whose fault schedule holds one
transient transport fault. -/
def cexStore9 : Store :=
  ⟨[("a", ({ mailbox_id := "a", peer_mailbox_id := some "b", created_at_epoch_ms := 0, expires_at_epoch_ms := 1000 }, 600))],
   [], [], [true]⟩

/-- C9, counterexample: mailbox `"a"` exists in the store data and a single
transient transport fault is scheduled.  The read-path `recv_messages`
surfaces `Redis` (HTTP 500) immediately — no retry is performed — although
one retry would have succeeded, as the same call on the same data with the
fault consumed shows. -/
theorem claim_C9_counterexample :
    (recv_messages cexStore9 "a").2 = .error .Redis ∧
    (recv_messages ⟨cexStore9.metas, [], [], []⟩ "a").2
      = .ok { messages := [], last_sequence := 0 } ∧
    rendezvous_err .Redis = 500 := by
  decide

/-- C9, amended: the Coordinator never retries any store operation, on read
paths or on write paths.  Whenever the next store command is set to fail,
each of the four operations surfaces `Redis` (HTTP 500) at once, consuming
exactly that one fault flag and leaving all store data unchanged. -/
theorem claim_C9 {s : Store} {rest : List Bool} (h : s.faults = true :: rest)
    (ttl now : Nat) (m ct id t : String) :
    recv_messages s m = ({ s with faults := rest }, .error .Redis) ∧
    send_message ttl now s m ct = ({ s with faults := rest }, .error .Redis) ∧
    init_connection ttl now id s t = ({ s with faults := rest }, .error .Redis) ∧
    join_connection ttl now id s t = ({ s with faults := rest }, .error .Redis) ∧
    rendezvous_err .Redis = 500 := by
  refine ⟨?_, ?_, ?_, ?_, rfl⟩ <;>
    simp [recv_messages, send_message, init_connection, join_connection,
      get_mailbox_meta, save_mailbox_meta, get_and_delete_rendezvous,
      takeFault, h]

/-- C9, witness: the amended theorem on a store whose next command fails. -/
theorem claim_C9_witness :
    recv_messages ⟨[], [], [], [true]⟩ "a" = (⟨[], [], [], []⟩, .error .Redis) ∧
    send_message 600 1 ⟨[], [], [], [true]⟩ "a" "x" = (⟨[], [], [], []⟩, .error .Redis) ∧
    init_connection 600 1 "i" ⟨[], [], [], [true]⟩ "t" = (⟨[], [], [], []⟩, .error .Redis) ∧
    join_connection 600 1 "j" ⟨[], [], [], [true]⟩ "t" = (⟨[], [], [], []⟩, .error .Redis) ∧
    rendezvous_err .Redis = 500 :=
  claim_C9 (s := ⟨[], [], [], [true]⟩) rfl 600 1 "a" "x" "i" "j"

/-- C10: `recv_messages` never fails because of a malformed stored entry.
On a fault-free store whose mailbox exists, whatever the raw list contains,
it returns `Ok`, with exactly the parseable entries in list order, and
`last_sequence` computed from the parseable entries only. -/
theorem claim_C10 {s : Store} (h : s.faults = []) {m : String} {st : MailboxState}
    {ttlm : Nat} (hm : getKey m s.metas = some (st, ttlm)) {l : List RawEntry}
    (hl : getKey m s.lists = some l) :
    (recv_messages s m).2
      = .ok { messages := (l.filterMap parseEntry).map storedToMessage,
              last_sequence := ((((l.filterMap parseEntry).map storedToMessage).getLast?.map (fun x => x.sequence)).getD 0) } := by
  simp [recv_messages_nf h hm, hl]

/-- A store whose mailbox `"a"` holds a corrupt raw entry between two valid
entries. -/
def witStore10 : Store :=
  ⟨[("a", ({ mailbox_id := "a", peer_mailbox_id := some "b", created_at_epoch_ms := 0, expires_at_epoch_ms := 100 }, 600))],
   [("a", [RawEntry.valid { from_mailbox_id := "b", ciphertext_b64 := "x", sequence := 0, timestamp_epoch_ms := 1 },
           RawEntry.corrupt "junk",
           RawEntry.valid { from_mailbox_id := "b", ciphertext_b64 := "y", sequence := 1, timestamp_epoch_ms := 2 }])],
   [], []⟩

/-- C10, witness: the corrupt entry is dropped and the two valid entries
are returned in order. -/
theorem claim_C10_witness :
    (recv_messages witStore10 "a").2
      = .ok { messages :=
                [{ from_mailbox_id := "b", ciphertext_b64 := "x", sequence := 0, timestamp_epoch_ms := 1 },
                 { from_mailbox_id := "b", ciphertext_b64 := "y", sequence := 1, timestamp_epoch_ms := 2 }],
              last_sequence := 1 } := by
  have hm : getKey "a" witStore10.metas
      = some ({ mailbox_id := "a", peer_mailbox_id := some "b",
                created_at_epoch_ms := 0, expires_at_epoch_ms := 100 }, 600) := by decide
  have hl : getKey "a" witStore10.lists
      = some [RawEntry.valid { from_mailbox_id := "b", ciphertext_b64 := "x", sequence := 0, timestamp_epoch_ms := 1 },
              RawEntry.corrupt "junk",
              RawEntry.valid { from_mailbox_id := "b", ciphertext_b64 := "y", sequence := 1, timestamp_epoch_ms := 2 }] := by
    decide
  exact (claim_C10 rfl hm hl).trans (by decide)

/-- C1, counterexample: after `init("t")` and a successful `join("t")`, a
second `init` reusing the same token `"t"` re-creates the rendezvous
mapping (because `save_rendezvous` overwrites), and a second `join("t")`
then succeeds as well — so two `join_connection` calls on the same token
both succeed in one execution. -/
theorem claim_C1_counterexample :
    (join_connection 600 1 "b" (init_connection 600 0 "a" ⟨[], [], [], []⟩ "t").1 "t").2
      = .ok ({ mailbox_id := "b", expires_at_epoch_ms := 600000 }, "a",
             { from_mailbox_id := "b", ciphertext_b64 := "", sequence := 0, timestamp_epoch_ms := 1 }) ∧
    (join_connection 600 3 "d" (init_connection 600 2 "c" (join_connection 600 1 "b" (init_connection 600 0 "a" ⟨[], [], [], []⟩ "t").1 "t").1 "t").1 "t").2
      = .ok ({ mailbox_id := "d", expires_at_epoch_ms := 600002 }, "c",
             { from_mailbox_id := "d", ciphertext_b64 := "", sequence := 0, timestamp_epoch_ms := 3 }) := by
  decide

/-- C1, amended: a successful `join_connection` consumes the token's
rendezvous mapping, and every subsequent `join_connection` with the same
token fails with `InvalidToken` (HTTP 404) PROVIDED no later
`init_connection` reuses the same token — the proviso is forced because
`save_rendezvous` overwrites, so a token-reusing init re-arms the token. -/
theorem claim_C1 {s : Store} (h : s.faults = []) (ttl now : Nat) (rid t : String)
    {res : ConnectionJoinResponse × String × MailboxMessageStored}
    (hok : (join_connection ttl now rid s t).2 = .ok res)
    (L : List Op) (hL : ∀ op ∈ L, ∀ n i, op ≠ Op.opInit n i t)
    (now2 : Nat) (rid2 : String) :
    (join_connection ttl now2 rid2 (runOps ttl (join_connection ttl now rid s t).1 L) t).2
      = .error .InvalidToken ∧ rendezvous_err .InvalidToken = 404 := by
  have h1 : (join_connection ttl now rid s t).1.faults = [] :=
    join_connection_faults h ttl now rid t
  have h2 : getKey t (join_connection ttl now rid s t).1.rendezvous = none :=
    join_rend_none_after h ttl now rid t
  have h3 := runOps_rend_none h1 h2 ttl L hL
  have h4 := runOps_faults h1 ttl L
  exact ⟨by rw [join_connection_invalid h4 h3 ttl now2 rid2], rfl⟩

/-- C1, witness: after the first successful join, a recv happens and then a
join with the consumed token fails with 404. -/
theorem claim_C1_witness :
    (join_connection 600 3 "x" (runOps 600 (join_connection 600 1 "b" (init_connection 600 0 "a" ⟨[], [], [], []⟩ "t").1 "t").1 [Op.opRecv "a"]) "t").2
      = .error .InvalidToken ∧ rendezvous_err .InvalidToken = 404 := by
  have hok : (join_connection 600 1 "b" (init_connection 600 0 "a" ⟨[], [], [], []⟩ "t").1 "t").2
      = .ok ({ mailbox_id := "b", expires_at_epoch_ms := 600000 }, "a",
             { from_mailbox_id := "b", ciphertext_b64 := "", sequence := 0, timestamp_epoch_ms := 1 }) := by
    decide
  have hL : ∀ op ∈ [Op.opRecv "a"], ∀ n i, op ≠ Op.opInit n i "t" := by
    intro op hop n i
    simp only [List.mem_singleton] at hop
    subst hop
    simp
  have h : (init_connection 600 0 "a" (⟨[], [], [], []⟩ : Store) "t").1.faults = [] := by
    decide
  exact claim_C1 h 600 1 "b" "t" hok [Op.opRecv "a"] hL 3 "x"

/-- C3: after a fault-free `init_connection` (initiator `A`) and
`join_connection` (responder `B`) on the same token, the two stored
metadata records reference each other as peers and share the same
`expires_at_epoch_ms` (the initiator started with no peer); and along any
fault-free trace with fresh generated ids, a `peer_mailbox_id` that is set
stays set to the same value under every operation — it is never modified
after its absent-to-present transition. -/
theorem claim_C3 {s : Store} (h : s.faults = []) (ttl n1 n2 : Nat)
    {A B : String} (hAB : A ≠ B) (t : String) :
    (getKey A (join_connection ttl n2 B (init_connection ttl n1 A s t).1 t).1.metas
        = some ({ mailbox_id := A, peer_mailbox_id := some B, created_at_epoch_ms := n1, expires_at_epoch_ms := n1 + ttl * 1000 }, ttl)
      ∧ getKey B (join_connection ttl n2 B (init_connection ttl n1 A s t).1 t).1.metas
        = some ({ mailbox_id := B, peer_mailbox_id := some A, created_at_epoch_ms := n1, expires_at_epoch_ms := n1 + ttl * 1000 }, ttl))
    ∧ (∀ (s2 : Store) (L : List Op) (m p : String) (st : MailboxState) (ttlm : Nat),
        s2.faults = [] → metasShaped s2 →
        getKey m s2.metas = some (st, ttlm) → st.peer_mailbox_id = some p →
        FreshTrace ttl s2 L →
        ∃ st2 ttl2, getKey m (runOps ttl s2 L).metas = some (st2, ttl2) ∧
          st2.peer_mailbox_id = some p) := by
  constructor
  · have hinit := init_connection_nf h ttl n1 A t
    have h1 : (init_connection ttl n1 A s t).1.faults = [] := by
      rw [hinit]
      exact h
    have hr : getKey t (init_connection ttl n1 A s t).1.rendezvous = some (A, 300) := by
      rw [hinit]
      exact getKey_setKey_self t (A, 300) s.rendezvous
    have hmA : getKey A (init_connection ttl n1 A s t).1.metas
        = some (initMeta ttl n1 A, ttl) := by
      rw [hinit]
      exact getKey_setKey_self A (initMeta ttl n1 A, ttl) s.metas
    have hjoin := join_connection_nf h1 hr hmA rfl rfl ttl n2 B
    constructor
    · rw [hjoin]
      exact (getKey_setKey_ne _ _ (Ne.symm hAB)).trans (getKey_setKey_self _ _ _)
    · rw [hjoin]
      exact getKey_setKey_self _ _ _
  · intro s2 L m p st ttlm h2 hs2 hm2 hp2 hL2
    exact runOps_peer_persist h2 hs2 hm2 hp2 ttl L hL2

/-- C3, witness: the pair invariant on a concrete init+join, and peer-link
persistence across a recv on a concrete paired store. -/
theorem claim_C3_witness :
    (getKey "a" (join_connection 600 1 "b" (init_connection 600 0 "a" ⟨[], [], [], []⟩ "t").1 "t").1.metas
        = some ({ mailbox_id := "a", peer_mailbox_id := some "b", created_at_epoch_ms := 0, expires_at_epoch_ms := 600000 }, 600)
      ∧ getKey "b" (join_connection 600 1 "b" (init_connection 600 0 "a" ⟨[], [], [], []⟩ "t").1 "t").1.metas
        = some ({ mailbox_id := "b", peer_mailbox_id := some "a", created_at_epoch_ms := 0, expires_at_epoch_ms := 600000 }, 600))
    ∧ (∃ st2 ttl2, getKey "a" (runOps 600 witStore7 [Op.opRecv "a"]).metas = some (st2, ttl2) ∧
        st2.peer_mailbox_id = some "b") := by
  have hAB : "a" ≠ "b" := by decide
  have base := claim_C3 (s := ⟨[], [], [], []⟩) rfl 600 0 1 hAB "t"
  refine ⟨base.1, ?_⟩
  have hm2 : getKey "a" witStore7.metas
      = some ({ mailbox_id := "a", peer_mailbox_id := some "b", created_at_epoch_ms := 0, expires_at_epoch_ms := 100 }, 600) := by
    decide
  have hshape : metasShaped witStore7 := by
    intro k st2 t2 hk
    simp only [witStore7, getKey] at hk
    by_cases hak : "a" = k
    · rw [if_pos hak] at hk
      cases hk
      exact hak
    · rw [if_neg hak] at hk
      cases hk
  exact base.2 witStore7 [Op.opRecv "a"] "a" "b"
    { mailbox_id := "a", peer_mailbox_id := some "b", created_at_epoch_ms := 0, expires_at_epoch_ms := 100 }
    600 rfl hshape hm2 rfl ⟨trivial, trivial⟩

/-- C4: in any fault-free sequential execution from a well-shaped store
with dense lists, every mailbox list stays dense: when `recv_messages`
succeeds on mailbox `m` whose raw list is `l`, the returned messages carry
the sequence values `0, 1, …, l.length − 1` exactly, in list (insertion)
order, one message per appended entry. -/
theorem claim_C4 {s : Store} (h : s.faults = []) (hs : metasShaped s)
    (hd : listsDense s) (ttl : Nat) (L : List Op) (m : String) {l : List RawEntry}
    (hl : getKey m (runOps ttl s L).lists = some l)
    {msgs : List MailboxMessage} {last : Nat}
    (hr : (recv_messages (runOps ttl s L) m).2
      = .ok { messages := msgs, last_sequence := last }) :
    msgs.map (fun x => x.sequence) = List.range l.length ∧
    msgs.length = l.length := by
  have h2 := runOps_faults h ttl L
  have hd2 := (runOps_dense h hs hd ttl L).1
  rcases hm : getKey m (runOps ttl s L).metas with _ | ⟨st, ttlm⟩
  · rw [recv_messages_notfound h2 hm] at hr
    cases hr
  · rw [recv_messages_nf h2 hm, hl] at hr
    simp only [Option.getD_some] at hr
    have hr2 := hr
    simp only [Except.ok.injEq, MailboxRecvResponse.mk.injEq] at hr2
    obtain ⟨hmsgs, _⟩ := hr2
    subst hmsgs
    have hseq : ((l.filterMap parseEntry).map storedToMessage).map (fun x => x.sequence)
        = List.range l.length := by
      rw [List.map_map]
      exact denseList_filterMap (hd2 m l hl)
    refine ⟨hseq, ?_⟩
    have hlen := congrArg List.length hseq
    simpa using hlen

/-- C4, witness: init, join and one send from the responder; the
initiator's mailbox holds two entries with sequences `0, 1`. -/
theorem claim_C4_witness :
    ([{ from_mailbox_id := "b", ciphertext_b64 := "", sequence := 0, timestamp_epoch_ms := 1 },
      { from_mailbox_id := "b", ciphertext_b64 := "x", sequence := 1, timestamp_epoch_ms := 2 }] : List MailboxMessage).map (fun x => x.sequence)
      = List.range 2 ∧
    ([{ from_mailbox_id := "b", ciphertext_b64 := "", sequence := 0, timestamp_epoch_ms := 1 },
      { from_mailbox_id := "b", ciphertext_b64 := "x", sequence := 1, timestamp_epoch_ms := 2 }] : List MailboxMessage).length = 2 := by
  have hs : metasShaped ⟨[], [], [], []⟩ := fun k st t2 hk => nomatch hk
  have hd : listsDense ⟨[], [], [], []⟩ := fun k l hk => nomatch hk
  have hl : getKey "a" (runOps 600 ⟨[], [], [], []⟩
      [Op.opInit 0 "a" "t", Op.opJoin 1 "b" "t", Op.opSend 2 "b" "x"]).lists
      = some [RawEntry.valid { from_mailbox_id := "b", ciphertext_b64 := "", sequence := 0, timestamp_epoch_ms := 1 },
              RawEntry.valid { from_mailbox_id := "b", ciphertext_b64 := "x", sequence := 1, timestamp_epoch_ms := 2 }] := by
    decide
  have hr : (recv_messages (runOps 600 ⟨[], [], [], []⟩
      [Op.opInit 0 "a" "t", Op.opJoin 1 "b" "t", Op.opSend 2 "b" "x"]) "a").2
      = .ok { messages := [{ from_mailbox_id := "b", ciphertext_b64 := "", sequence := 0, timestamp_epoch_ms := 1 },
                           { from_mailbox_id := "b", ciphertext_b64 := "x", sequence := 1, timestamp_epoch_ms := 2 }],
              last_sequence := 1 } := by
    decide
  have := claim_C4 rfl hs hd 600
    [Op.opInit 0 "a" "t", Op.opJoin 1 "b" "t", Op.opSend 2 "b" "x"] "a" hl hr
  simpa using this

/-- C6: immediately after a fault-free `init_connection` (initiator `A`)
and `join_connection` (responder `B ≠ A`) on the same token, with no
intervening sends, `recv_messages` on the initiator returns exactly one
message — the synthetic peer-joined entry with `from_mailbox_id = B`,
empty ciphertext and `sequence = 0` — and `last_sequence = 0`. -/
theorem claim_C6 {s : Store} (h : s.faults = []) (ttl n1 n2 : Nat)
    {A B : String} (hAB : A ≠ B) (t : String) :
    (recv_messages (join_connection ttl n2 B (init_connection ttl n1 A s t).1 t).1 A).2
      = .ok { messages := [{ from_mailbox_id := B, ciphertext_b64 := "", sequence := 0, timestamp_epoch_ms := n2 }],
              last_sequence := 0 } := by
  have hinit := init_connection_nf h ttl n1 A t
  have h1 : (init_connection ttl n1 A s t).1.faults = [] := by
    rw [hinit]
    exact h
  have hr : getKey t (init_connection ttl n1 A s t).1.rendezvous = some (A, 300) := by
    rw [hinit]
    exact getKey_setKey_self t (A, 300) s.rendezvous
  have hmA : getKey A (init_connection ttl n1 A s t).1.metas
      = some (initMeta ttl n1 A, ttl) := by
    rw [hinit]
    exact getKey_setKey_self A (initMeta ttl n1 A, ttl) s.metas
  have hjoin := join_connection_nf h1 hr hmA rfl rfl ttl n2 B
  have h2 : (join_connection ttl n2 B (init_connection ttl n1 A s t).1 t).1.faults = [] :=
    join_connection_faults h1 ttl n2 B t
  have hm2 : getKey A (join_connection ttl n2 B (init_connection ttl n1 A s t).1 t).1.metas
      = some ({ initMeta ttl n1 A with peer_mailbox_id := some B }, ttl) := by
    rw [hjoin]
    exact (getKey_setKey_ne _ _ (Ne.symm hAB)).trans (getKey_setKey_self _ _ _)
  have hcur : (getKey A (delKey B (init_connection ttl n1 A s t).1.lists)).getD []
      = ([] : List RawEntry) := by
    rw [getKey_delKey_ne _ (Ne.symm hAB), hinit]
    simp [getKey_delKey_self]
  rw [recv_messages_nf h2 hm2, hjoin]
  simp [getKey_setKey_self, hcur, joinMsg, parseEntry, storedToMessage]

/-- C6, witness: the theorem on the empty store with concrete ids. -/
theorem claim_C6_witness :
    (recv_messages (join_connection 600 1 "b" (init_connection 600 0 "a" ⟨[], [], [], []⟩ "t").1 "t").1 "a").2
      = .ok { messages := [{ from_mailbox_id := "b", ciphertext_b64 := "", sequence := 0, timestamp_epoch_ms := 1 }],
              last_sequence := 0 } := by
  have hAB : "a" ≠ "b" := by decide
  exact claim_C6 rfl 600 0 1 hAB "t"
